import Mathlib

/- Verification of the KalaaSetu MVC job-orchestration spec against the
repository's sources.  The frontend API service (`src/services/api.ts`,
provided as `src/unnamed/part_002`) and the page handlers are embedded
directly; the backend pipeline core is not part of the source tree, so it
is modelled from the specification where noted. -/

namespace KalaaSetu

/-! ## JavaScript string helpers -/

/-- Characters matched by the JavaScript regex class `\s` (ASCII part),
which is also the set trimmed by `String.prototype.trim`. -/
def isJsSpace (c : Char) : Bool :=
  c == ' ' || c == '\t' || c == '\n' || c == '\x0d' || c == '\x0b' || c == '\x0c'

/-- Model of `String.prototype.trim` on the character list of a string. -/
def trimList (l : List Char) : List Char :=
  ((l.dropWhile isJsSpace).reverse.dropWhile isJsSpace).reverse

/-- A string is blank when it is empty or consists only of whitespace. -/
def isBlank (s : String) : Bool :=
  s.data.all isJsSpace

/-! ## Embedding of the frontend API service (`src/services/api.ts`)

Axios clients are embedded as their configuration records; requests are
embedded as request plans (the configuration plus the path that would be
posted to), since the network itself is an external collaborator. -/

/-- Configuration record produced by `axios.create` in the three
`create*ApiClient` factories. -/
structure AxiosConfig where
  baseURL : String
  headers : List (String × String)
  timeoutMs : Nat
  withCredentials : Bool
deriving DecidableEq, Repr

/-- `createApiClient` from `api.ts`: JSON client.  The source comment claims
a 30-second timeout but the configured value is 300000000 ms. -/
def createApiClient (baseURL : String) : AxiosConfig :=
  { baseURL := baseURL
    headers := [("Content-Type", "application/json"), ("Accept", "application/json")]
    timeoutMs := 300000000
    withCredentials := false }

/-- `createFormApiClient` from `api.ts`: form-urlencoded client used by the
storyboard and illustration calls.  The source comment claims a 10-minute
timeout but the configured value is 30000000 ms. -/
def createFormApiClient (baseURL : String) : AxiosConfig :=
  { baseURL := baseURL
    headers :=
      [("Content-Type", "application/x-www-form-urlencoded"),
       ("Accept", "text/html,application/xhtml+xml,application/xml;q=0.9,image/avif,image/webp,image/apng,*/*;q=0.8,application/signed-exchange;v=b3;q=0.7"),
       ("User-Agent", "Mozilla/5.0 (X11; Linux x86_64) AppleWebKit/537.36 (KHTML, like Gecko) Chrome/138.0.0.0 Safari/537.36")]
    timeoutMs := 30000000
    withCredentials := false }

/-- `createAudioApiClient` from `api.ts`: audio client, 60-second timeout. -/
def createAudioApiClient (baseURL : String) : AxiosConfig :=
  { baseURL := baseURL
    headers := [("Content-Type", "application/json"), ("Accept", "application/json, audio/*")]
    timeoutMs := 60000
    withCredentials := false }

/-- The `response` carried by an axios error: HTTP status plus the optional
`data.error` / `data.message` fields read by `handleApiError`. -/
structure AxiosResponse where
  status : Nat
  dataError : Option String
  dataMessage : Option String
deriving DecidableEq, Repr

/-- Shape of the `error : any` value examined by `handleApiError`:
an optional server response, whether a request object is present, and the
optional `message` string. -/
structure JsError where
  response : Option AxiosResponse
  hasRequest : Bool
  message : Option String
deriving DecidableEq, Repr

/-- JavaScript `a || b` on an optional string (empty strings are falsy). -/
def jsOrStr (o : Option String) (d : String) : String :=
  match o with
  | some s => if s = "" then d else s
  | none => d

/-- Whether `pat` occurs at the head of `l`. -/
def startsWithList : List Char → List Char → Bool
  | [], _ => true
  | _ :: _, [] => false
  | p :: ps, c :: cs => p == c && startsWithList ps cs

/-- Whether `pat` occurs anywhere inside `l` (model of `String.includes`). -/
def hasInfix (pat : List Char) : List Char → Bool
  | [] => startsWithList pat []
  | c :: rest => startsWithList pat (c :: rest) || hasInfix pat rest

/-- JavaScript `error.message && error.message.includes('CORS')`. -/
def includesCORS (o : Option String) : Bool :=
  match o with
  | some s => if s = "" then false else hasInfix "CORS".data s.data
  | none => false

/-- The fixed CORS-guidance message used in both fallback branches. -/
def corsMessage : String :=
  "CORS error: The server is not configured to allow requests from this origin. Please check your API URL and server CORS settings."

/-- `handleApiError` from `api.ts`. -/
def handleApiError (error : JsError) : String :=
  match error.response with
  | some resp =>
    let message := jsOrStr resp.dataError (jsOrStr resp.dataMessage "Unknown error")
    match resp.status with
    | 400 => "Bad request: " ++ message
    | 401 => "Unauthorized: " ++ message
    | 403 => "Forbidden: " ++ message
    | 404 => "Not found: " ++ message
    | 429 => "Rate limited: " ++ message
    | 500 => "Server error: " ++ message
    | s => "HTTP " ++ toString s ++ ": " ++ message
  | none =>
    if error.hasRequest then
      if includesCORS error.message then corsMessage
      else "No response from server. Please check your connection."
    else
      if includesCORS error.message then corsMessage
      else jsOrStr error.message "An unexpected error occurred"

/-! ### `base64ToBlobUrl` -/

/-- Characters removed by the cleaning regex `/[\r\n\s]/g` in
`base64ToBlobUrl` (carriage returns, newlines and `\s`). -/
def strippedByCleaning (c : Char) : Bool :=
  c == '\x0d' || c == '\n' || isJsSpace c

/-- The cleaning step `base64String.replace(/[\r\n\s]/g, '')`. -/
def jsCleanB64 (l : List Char) : List Char :=
  l.filter (fun c => !strippedByCleaning c)

/-- Membership in the base64 alphabet `A-Z a-z 0-9 + /`. -/
def isB64Char (c : Char) : Bool :=
  ('A' ≤ c && c ≤ 'Z') || ('a' ≤ c && c ≤ 'z') || ('0' ≤ c && c ≤ '9') ||
    c == '+' || c == '/'

/-- The validation regex `^[A-Za-z0-9+/]*={0,2}$`: a run of alphabet
characters followed by at most two trailing `=`. -/
def b64Valid : List Char → Bool
  | [] => true
  | c :: rest =>
    if isB64Char c then b64Valid rest
    else c == '=' && (rest == [] || rest == ['='])

/-- Number of `=` characters appended by the padding step
`'='.repeat((4 - cleanedBase64.length % 4) % 4)`. -/
def padLen (n : Nat) : Nat := (4 - n % 4) % 4

/-- The padding step of `base64ToBlobUrl`. -/
def b64Pad (l : List Char) : List Char :=
  l ++ List.replicate (padLen l.length) '='

/-- Six-bit value of one base64 character (as used by `atob`). -/
def b64CharVal (c : Char) : Option Nat :=
  if 'A' ≤ c && c ≤ 'Z' then some (c.toNat - 65)
  else if 'a' ≤ c && c ≤ 'z' then some (c.toNat - 97 + 26)
  else if '0' ≤ c && c ≤ '9' then some (c.toNat - 48 + 52)
  else if c == '+' then some 62
  else if c == '/' then some 63
  else none

/-- Maps every character to its six-bit value, failing on any foreign one. -/
def b64Vals : List Char → Option (List Nat)
  | [] => some []
  | c :: rest =>
    match b64CharVal c, b64Vals rest with
    | some v, some vs => some (v :: vs)
    | _, _ => none

/-- Reassembles bytes from six-bit groups, forbidding a lone trailing unit. -/
def b64Bytes : List Nat → Option (List Nat)
  | [] => some []
  | [_] => none
  | [a, b] => some [a * 4 + b / 16]
  | [a, b, c] => some [a * 4 + b / 16, b % 16 * 16 + c / 4]
  | a :: b :: c :: d :: rest =>
    match b64Bytes rest with
    | some tail => some ((a * 4 + b / 16) :: (b % 16 * 16 + c / 4) :: (c % 4 * 64 + d) :: tail)
    | none => none

/-- Drops up to `k` trailing characters equal to `'='` (helper for the
`atob` model); operates on the reversed list. -/
def dropEqAtMost : Nat → List Char → List Char
  | 0, l => l
  | k + 1, l =>
    match l with
    | '=' :: rest => dropEqAtMost k rest
    | _ => l

/-- Model of the browser `atob` builtin (forgiving-base64 decode, on input
already free of whitespace): strip up to two trailing `=` when the length
is a multiple of four, then decode; fail on foreign characters or a
leftover length of one. -/
def atobDecode (l : List Char) : Option (List Nat) :=
  let body := if l.length % 4 = 0 then (dropEqAtMost 2 l.reverse).reverse else l
  match b64Vals body with
  | some vs => b64Bytes vs
  | none => none

/-- `base64ToBlobUrl` from `api.ts`, returning the decoded bytes in place
of a blob URL (blob allocation is a browser effect).  Errors carry the
message of the rethrown `Failed to process image data` exception. -/
def base64ToBlobUrl (base64String : String) : Except String (List Nat) :=
  let cleanedBase64 := jsCleanB64 base64String.data
  if b64Valid cleanedBase64 then
    let paddedBase64 := b64Pad cleanedBase64
    match atobDecode paddedBase64 with
    | some bytes => Except.ok bytes
    | none => Except.error "Failed to process image data: InvalidCharacterError"
  else Except.error "Failed to process image data: Invalid base64 format"

/-! ### Settings and the generation operations -/

/-- The settings object persisted under the `apiSettings` localStorage
key. -/
structure ApiSettings where
  infographicBaseUrl : String
  illustrationBaseUrl : String
  audioBaseUrl : String
deriving DecidableEq, Repr

/-- The default settings returned when nothing usable is stored. -/
def emptySettings : ApiSettings := ⟨"", "", ""⟩

/-- Observable condition of the browser storage as read by `getSettings`:
no `window` object (server side), no saved value, a saved value that
`JSON.parse` rejects, or a parsed settings object. -/
inductive StorageState where
  | noWindow
  | absent
  | unparsable (raw : String)
  | stored (s : ApiSettings)
deriving DecidableEq, Repr

/-- `getSettings` from `api.ts`. -/
def getSettings : StorageState → ApiSettings
  | .stored s => s
  | _ => emptySettings

/-- A network request that a generation operation is about to issue:
the configured client plus the path posted to. -/
structure RequestPlan where
  client : AxiosConfig
  path : String
deriving DecidableEq, Repr

/-- Pre-network phase of `apiService.generateInfographic`: a missing base
URL is thrown and surfaced through `handleApiError`; otherwise the request
plan is produced. -/
def generateInfographic (storage : StorageState) : Except String RequestPlan :=
  let settings := getSettings storage
  if settings.infographicBaseUrl = "" then
    Except.error (handleApiError ⟨none, false, some "Infographic API URL not configured"⟩)
  else Except.ok ⟨createApiClient settings.infographicBaseUrl, "/generate-infographic"⟩

/-- Pre-network phase of `apiService.generateGraph`. -/
def generateGraph (storage : StorageState) : Except String RequestPlan :=
  let settings := getSettings storage
  if settings.infographicBaseUrl = "" then
    Except.error (handleApiError ⟨none, false, some "Infographic API URL not configured"⟩)
  else Except.ok ⟨createApiClient settings.infographicBaseUrl, "/generate-graph"⟩

/-- Pre-network phase of `apiService.generateIllustration` (form client). -/
def generateIllustration (storage : StorageState) : Except String RequestPlan :=
  let settings := getSettings storage
  if settings.illustrationBaseUrl = "" then
    Except.error (handleApiError ⟨none, false, some "Illustration API URL not configured"⟩)
  else Except.ok ⟨createFormApiClient settings.illustrationBaseUrl, "/generate-illustration"⟩

/-- Pre-network phase of `apiService.generateStoryboard` (form client). -/
def generateStoryboard (storage : StorageState) : Except String RequestPlan :=
  let settings := getSettings storage
  if settings.illustrationBaseUrl = "" then
    Except.error (handleApiError ⟨none, false, some "Illustration API URL not configured"⟩)
  else Except.ok ⟨createFormApiClient settings.illustrationBaseUrl, "/generate-storyboard"⟩

/-- Pre-network phase of `apiService.generateAudio` (audio client). -/
def generateAudio (storage : StorageState) : Except String RequestPlan :=
  let settings := getSettings storage
  if settings.audioBaseUrl = "" then
    Except.error (handleApiError ⟨none, false, some "Audio API URL not configured"⟩)
  else Except.ok ⟨createAudioApiClient settings.audioBaseUrl, "/generate-audio"⟩

/-! ### Page handlers guarding generation submissions -/

/-- Outcome of a page-level generate handler: an early rejection, or the
text that is handed to the generation call. -/
inductive HandlerOutcome where
  | rejected (msg : String)
  | proceeded (text : String)
deriving DecidableEq, Repr

/-- `handleGenerate` from the illustration/storyboard page
(`src/unnamed/part_003`): `if (!prompt.trim()) { alert(...); return; }`. -/
def handleGenerate (prompt : String) : HandlerOutcome :=
  if trimList prompt.data = [] then .rejected "Please enter a prompt first."
  else .proceeded prompt

/-- `handleGenerateAudio` from `frontend/src/app/audio/page.tsx`:
`if (!text.trim()) { setError(...); return; }`, then the request is built
from `text.trim()`. -/
def handleGenerateAudio (text : String) : HandlerOutcome :=
  if trimList text.data = [] then
    .rejected "Please enter some text to convert to speech."
  else .proceeded (String.mk (trimList text.data))

/-! ## The job-orchestration core

The pipeline/scheduler implementation (the Python backend) is not part of
the source tree — only its callers, container build and overview documents
are — so every definition in this namespace is modelled from the
specification (§3–§7), as its doc comment records. -/

namespace Core

/-- Modelled from the spec: artifact bytes referenced by handle. -/
abbrev Bytes := List Nat

/-- Modelled from the spec: the `current_stage` marker of §4.6. -/
inductive StageName where
  | segmenting
  | narrating
  | renderingScenes
  | captioning
  | composing
deriving DecidableEq, Repr

/-- Modelled from the spec: the tagged outcome of one stage (§3),
`Success` / `Degraded` / `Fatal`. -/
inductive StageResult (T : Type) where
  | success (value : T)
  | degraded (value : T) (reason : String)
  | fatal (reason : String)
deriving DecidableEq, Repr

/-- Modelled from the spec: job states `queued → running → completed |
failed`, with `running` carrying the current stage and `failed` the
originating stage and message (§4.6, §7). -/
inductive JobState where
  | queued
  | running (stage : StageName)
  | completed
  | failed (stage : StageName) (reason : String)
deriving DecidableEq, Repr

/-- Modelled from the spec: an allotted time span `(start, end)` in
milliseconds. -/
structure Span where
  start : Nat
  stop : Nat
deriving DecidableEq, Repr

/-- Length of a span in milliseconds. -/
def spanLen (sp : Span) : Nat := sp.stop - sp.start

/-- Modelled from the spec: one narration/visual unit (§3). -/
structure Segment where
  idx : Nat
  text : String
  concept : String
deriving DecidableEq, Repr

/-- Modelled from the spec: a timed caption entry (§4.4). -/
structure Caption where
  segIdx : Nat
  span : Span
  text : String
deriving DecidableEq, Repr

/-- Modelled from the spec: narration audio handle plus duration. -/
structure AudioArtifact where
  bytes : Bytes
  durationMs : Nat
deriving DecidableEq, Repr

/-- Modelled from the spec: one scene image, possibly a placeholder. -/
structure ImageArtifact where
  bytes : Bytes
  placeholder : Bool
deriving DecidableEq, Repr

/-- Modelled from the spec: the immutable generation request (§3); only
the fields the pipeline consumes are carried. -/
structure GenerationRequest where
  text : String
  tone : String
  domain : String
  environment : String
  durationTargetS : Nat
  fps : Nat
  language : String
  subtitlesEnabled : Bool
  backgroundMusicEnabled : Bool
deriving DecidableEq, Repr

/-! ### Segmenter (§4.1) -/

/-- Sentence-boundary characters used by the segmentation heuristic. -/
def isBreakChar (c : Char) : Bool :=
  c == '.' || c == '!' || c == '?' || c == '\n'

/-- Splits a character list at sentence boundaries. -/
def splitAtBreaks : List Char → List Char → List (List Char)
  | [], acc => [acc.reverse]
  | c :: rest, acc =>
    if isBreakChar c then acc.reverse :: splitAtBreaks rest []
    else splitAtBreaks rest (c :: acc)

/-- Trimmed, non-empty sentence pieces of the input text. -/
def sentencePieces (l : List Char) : List (List Char) :=
  ((splitAtBreaks l []).map KalaaSetu.trimList).filter (fun p => p ≠ [])

/-- Joins pieces with single spaces (used when merging overflow pieces
into the final segment). -/
def joinSpace : List (List Char) → List Char
  | [] => []
  | [p] => p
  | p :: rest => p ++ ' ' :: joinSpace rest

/-- Modelled from the spec: segment count is bounded to a configurable
maximum (§4.1); remaining text merges into the final segment. -/
def maxSegments : Nat := 8

/-- Caps the piece list at `maxSegments`, merging the remainder into the
final piece. -/
def mergeTail (ps : List (List Char)) : List (List Char) :=
  if ps.length ≤ maxSegments then ps
  else ps.take (maxSegments - 1) ++ [joinSpace (ps.drop (maxSegments - 1))]

/-- Builds the ordered segments from the pieces, assigning indices from
`i` upward; the provisional visual concept is the piece itself. -/
def numberPieces (i : Nat) : List (List Char) → List Segment
  | [] => []
  | p :: rest =>
    { idx := i, text := String.mk p, concept := String.mk p } :: numberPieces (i + 1) rest

/-- Modelled from the spec: the Segmenter (§4.1) — fails with
`InvalidInput` on empty/whitespace-only input, otherwise always succeeds,
deriving one segment per sentence piece with a provisional visual
concept. -/
def segmentText (text : String) : Except String (List Segment) :=
  if KalaaSetu.trimList text.data = [] then Except.error "InvalidInput"
  else
    let pieces := sentencePieces text.data
    let pieces := if pieces = [] then [KalaaSetu.trimList text.data] else pieces
    Except.ok (numberPieces 0 (mergeTail pieces))

/-! ### NarrationSynthesizer (§4.2) -/

/-- Counts maximal whitespace-free runs; the flag tracks whether the scan
is inside a word. -/
def countWordsAux : List Char → Bool → Nat
  | [], _ => 0
  | c :: rest, inWord =>
    if KalaaSetu.isJsSpace c then countWordsAux rest false
    else (if inWord then 0 else 1) + countWordsAux rest true

/-- Number of words of a character list (split at whitespace). -/
def wordCount (l : List Char) : Nat :=
  countWordsAux l false

/-- Modelled from the spec: the heuristic duration estimate for the silent
fallback track — a fixed 150 words-per-minute assumption (§4.2). -/
def estimateDurationMs (text : String) : Nat :=
  wordCount text.data * 60000 / 150

/-- Modelled from the spec: the generated silent-audio artifact of a given
duration (bytes abstracted away). -/
def silentAudio (durationMs : Nat) : AudioArtifact := ⟨[], durationMs⟩

/-- Modelled from the spec: the NarrationSynthesizer (§4.2) — attempts the
pluggable speech backend; on any backend error returns `Degraded` with a
silent track of the estimated duration, never `Fatal`. -/
def narrationSynthesizer (speech : String → Except String (Bytes × Nat))
    (text : String) : StageResult AudioArtifact :=
  match speech text with
  | .ok bd => .success ⟨bd.1, bd.2⟩
  | .error e => .degraded (silentAudio (estimateDurationMs text)) e

/-! ### SceneSynthesizer (§4.3) -/

/-- Modelled from the spec: the deterministic placeholder image for one
segment (flat colour derived from the domain, overlay naming the
segment); bytes abstracted, the placeholder flag recorded. -/
def placeholderImage (_seg : Segment) : ImageArtifact := ⟨[], true⟩

/-- Modelled from the spec: the SceneSynthesizer for one segment (§4.3) —
on backend failure returns `Degraded` with the placeholder, never
`Fatal`. -/
def sceneSynthesizer (image : String → Except String Bytes)
    (seg : Segment) : StageResult ImageArtifact :=
  match image seg.concept with
  | .ok bs => .success ⟨bs, false⟩
  | .error e => .degraded (placeholderImage seg) e

/-! ### CaptionBuilder (§4.4) -/

/-- Weight of a segment for proportional caption timing: its text
length (the deterministic rule chosen per §9's open question). -/
def segWeight (seg : Segment) : Nat := seg.text.length

/-- The `k`-th proportional boundary: `d * (sum of the first k weights) /
(sum of all weights)`. -/
def boundary (ws : List Nat) (d k : Nat) : Nat :=
  d * (ws.take k).sum / ws.sum

/-- Modelled from the spec: per-segment time spans proportional to the
weights, normalized to sum to the total duration (§4.4). -/
def captionSpans (ws : List Nat) (d : Nat) : List Span :=
  (List.range ws.length).map (fun i => ⟨boundary ws d i, boundary ws d (i + 1)⟩)

/-- Caption entries pairing each segment with its span. -/
def mkCaptions (segs : List Segment) (spans : List Span) : List Caption :=
  List.zipWith (fun seg sp => ⟨seg.idx, sp, seg.text⟩) segs spans

/-! ### Pipeline (§4.6) -/

/-- Modelled from the spec: the per-job mutable record the stages write
into (segments, per-stage artifacts, the non-fatal degradation log). -/
structure PipeState where
  segments : List Segment
  audio : Option AudioArtifact
  images : List ImageArtifact
  spans : List Span
  captions : List Caption
  video : Option Bytes
  degradedLog : List (StageName × String)
deriving DecidableEq, Repr

/-- The empty record a fresh job starts from. -/
def initState : PipeState := ⟨[], none, [], [], [], none, []⟩

/-- Records a `Degraded` notice in the job's non-fatal error record. -/
def logDegraded (n : StageName) (r : String) (st : PipeState) : PipeState :=
  { st with degradedLog := st.degradedLog ++ [(n, r)] }

/-- Modelled from the spec: the pluggable ML-backend contracts of §6. -/
structure Backends where
  speech : String → Except String (Bytes × Nat)
  image : String → Except String Bytes
  compose : List (ImageArtifact × Span) → Bytes → List Caption → Except String Bytes

/-- Segmentation stage: a `Fatal` result on invalid input, otherwise the
segments are stored. -/
def segStage (req : GenerationRequest) (st : PipeState) : StageResult PipeState :=
  match segmentText req.text with
  | .ok segs => .success { st with segments := segs }
  | .error e => .fatal e

/-- Narration stage, wrapping the NarrationSynthesizer. -/
def narStage (b : Backends) (req : GenerationRequest) (st : PipeState) :
    StageResult PipeState :=
  match narrationSynthesizer b.speech req.text with
  | .success a => .success { st with audio := some a }
  | .degraded a e => .degraded { st with audio := some a } e
  | .fatal e => .fatal e

/-- The image produced for one segment: the synthesized one, or the
placeholder when the stage result degraded. -/
def sceneImage (image : String → Except String Bytes) (seg : Segment) : ImageArtifact :=
  match sceneSynthesizer image seg with
  | .success v => v
  | .degraded v _ => v
  | .fatal _ => placeholderImage seg

/-- The degradation reasons collected over the per-segment results. -/
def sceneReasons (image : String → Except String Bytes) (segs : List Segment) :
    List String :=
  segs.filterMap (fun seg =>
    match sceneSynthesizer image seg with
    | .degraded _ e => some e
    | _ => none)

/-- Scene-rendering stage: one synthesis per segment; per-segment failures
degrade only that segment (placeholder), and the stage reports `Degraded`
when any segment fell back. -/
def sceneStage (b : Backends) (st : PipeState) : StageResult PipeState :=
  if sceneReasons b.image st.segments = [] then
    .success { st with images := st.segments.map (sceneImage b.image) }
  else
    .degraded { st with images := st.segments.map (sceneImage b.image) }
      (String.intercalate "; " (sceneReasons b.image st.segments))

/-- The narration duration recorded in the job record (zero if narration
has not run). -/
def narrDurationOf (st : PipeState) : Nat :=
  match st.audio with
  | some a => a.durationMs
  | none => 0

/-- The narration audio bytes recorded in the job record. -/
def audioBytesOf (st : PipeState) : Bytes :=
  match st.audio with
  | some a => a.bytes
  | none => []

/-- Captioning stage: modelled from the spec, `InvalidState` is fatal when
the narration duration is zero or no segments exist (§4.4); otherwise the
proportional spans (and, if enabled, caption entries) are stored. -/
def capStage (req : GenerationRequest) (st : PipeState) : StageResult PipeState :=
  if narrDurationOf st = 0 ∨ st.segments = [] then .fatal "InvalidState"
  else
    .success { st with
      spans := captionSpans (st.segments.map segWeight) (narrDurationOf st)
      captions :=
        if req.subtitlesEnabled then
          mkCaptions st.segments (captionSpans (st.segments.map segWeight) (narrDurationOf st))
        else [] }

/-- Composition stage: modelled from the spec, the one stage with no
fallback — any backend error is `CompositionError`, hence `Fatal` (§4.5). -/
def compStage (b : Backends) (st : PipeState) : StageResult PipeState :=
  match b.compose (st.images.zip st.spans) (audioBytesOf st) st.captions with
  | .ok v => .success { st with video := some v }
  | .error e => .fatal ("CompositionError: " ++ e)

/-- Modelled from the spec: the orchestrator's stage loop — stages run
strictly in order, `Degraded` is logged and execution continues, `Fatal`
aborts with the stage name and reason (§4.6). -/
def runStagesE : List (StageName × (PipeState → StageResult PipeState)) →
    PipeState → Except (StageName × String) PipeState
  | [], st => .ok st
  | (n, f) :: rest, st =>
    match f st with
    | .success st' => runStagesE rest st'
    | .degraded st' r => runStagesE rest (logDegraded n r st')
    | .fatal r => .error (n, r)

/-- The stage names the orchestrator actually executes, in order. -/
def executedStages : List (StageName × (PipeState → StageResult PipeState)) →
    PipeState → List StageName
  | [], _ => []
  | (n, f) :: rest, st =>
    match f st with
    | .success st' => n :: executedStages rest st'
    | .degraded st' r => n :: executedStages rest (logDegraded n r st')
    | .fatal _ => [n]

/-- The fixed dependency-ordered stage list of §4.6. -/
def kalaaStages (b : Backends) (req : GenerationRequest) :
    List (StageName × (PipeState → StageResult PipeState)) :=
  [(.segmenting, segStage req), (.narrating, narStage b req),
   (.renderingScenes, sceneStage b), (.captioning, capStage req),
   (.composing, compStage b)]

/-- One full pipeline run for a job. -/
def runPipeline (b : Backends) (req : GenerationRequest) :
    Except (StageName × String) PipeState :=
  runStagesE (kalaaStages b req) initState

/-- Terminal job state induced by a finished run: `completed` on success,
`failed` with the originating stage and reason otherwise. -/
def jobStateOf : Except (StageName × String) PipeState → JobState
  | .ok _ => .completed
  | .error nr => .failed nr.1 nr.2

/-- Big-step restatement of one pipeline run, used to reason about
`runPipeline`; `runPipeline_eq_bigStep` proves the two agree. -/
def pipelineBigStep (b : Backends) (req : GenerationRequest) :
    Except (StageName × String) PipeState :=
  match segmentText req.text with
  | .error e => .error (.segmenting, e)
  | .ok segs =>
    let a : AudioArtifact :=
      match b.speech req.text with
      | .ok bd => ⟨bd.1, bd.2⟩
      | .error _ => silentAudio (estimateDurationMs req.text)
    let log1 : List (StageName × String) :=
      match b.speech req.text with
      | .ok _ => []
      | .error e => [(.narrating, e)]
    let imgs := segs.map (sceneImage b.image)
    let log2 := log1 ++
      (if sceneReasons b.image segs = [] then []
       else [(.renderingScenes, String.intercalate "; " (sceneReasons b.image segs))])
    if a.durationMs = 0 ∨ segs = [] then .error (.captioning, "InvalidState")
    else
      let spans := captionSpans (segs.map segWeight) a.durationMs
      let caps := if req.subtitlesEnabled then mkCaptions segs spans else []
      match b.compose (imgs.zip spans) a.bytes caps with
      | .ok v => .ok ⟨segs, some a, imgs, spans, caps, some v, log2⟩
      | .error e => .error (.composing, "CompositionError: " ++ e)

/-! ### Job state machine and scheduler queries (§4.6, §4.7) -/

/-- Modelled from the spec: the events that drive a job record. -/
inductive JobEvent where
  | assignWorker
  | advanceStage (s : StageName)
  | finishOk
  | finishFatal (s : StageName) (r : String)
  | cancel
deriving DecidableEq, Repr

/-- Modelled from the spec: the job state machine of §4.6 — `queued →
running → completed | failed`, cancellation observed while running, and
terminal states absorbing every event. -/
def jobStep (st : JobState) (e : JobEvent) : JobState :=
  match st, e with
  | .queued, .assignWorker => .running .segmenting
  | .running _, .advanceStage s => .running s
  | .running _, .finishOk => .completed
  | .running _, .finishFatal s r => .failed s r
  | .running s, .cancel => .failed s "Cancelled"
  | s, _ => s

/-- Whether a job state is terminal. -/
def isTerminal : JobState → Bool
  | .completed => true
  | .failed _ _ => true
  | _ => false

/-- Modelled from the spec: one stored job record (state plus the held
artifact bytes). -/
structure JobRecord where
  state : JobState
  artifact : Bytes
deriving DecidableEq, Repr

/-- The in-memory job table, keyed by identifier. -/
abbrev JobTable := List (Nat × JobRecord)

/-- Modelled from the spec: the `GetArtifact` error taxonomy (§4.7). -/
inductive ArtifactError where
  | notFound
  | notReady
  | gone
deriving DecidableEq, Repr

/-- Modelled from the spec: `GetArtifact(job_id)` (§4.7) — `NotFound` for
unknown identifiers, `NotReady` unless completed, `Gone` for failed
jobs. -/
def getArtifact (tbl : JobTable) (id : Nat) : Except ArtifactError Bytes :=
  match tbl.lookup id with
  | none => .error .notFound
  | some j =>
    match j.state with
    | .completed => .ok j.artifact
    | .failed _ _ => .error .gone
    | _ => .error .notReady

/-- `GetArtifact` as a scheduler operation on the job table: fetching is
read-only, so the table is returned unchanged. -/
def getArtifactOp (tbl : JobTable) (id : Nat) :
    Except ArtifactError Bytes × JobTable :=
  (getArtifact tbl id, tbl)

/-- Modelled from the spec: `Submit(request)` (§4.7) — validation failures
become `InvalidInput` and no job is created; otherwise a fresh `queued`
record is stored under the new identifier. -/
def submit (req : GenerationRequest) (tbl : JobTable) (newId : Nat) :
    Except String (Nat × JobTable) :=
  if KalaaSetu.trimList req.text.data = [] then Except.error "InvalidInput"
  else Except.ok (newId, (newId, ⟨.queued, []⟩) :: tbl)

/-- A concrete request used to exercise the pipeline theorems. -/
def sampleRequest : GenerationRequest :=
  { text := "hi there", tone := "formal", domain := "health", environment := "urban"
    durationTargetS := 10, fps := 24, language := "en"
    subtitlesEnabled := false, backgroundMusicEnabled := false }

/-- Backends with every call succeeding, for concrete runs. -/
def sampleBackendsOk : Backends :=
  ⟨fun _ => Except.ok ([1], 1000), fun _ => Except.ok [2], fun _ _ _ => Except.ok [3]⟩

/-- Backends whose speech synthesis is down but whose other calls succeed. -/
def sampleBackendsNoSpeech : Backends :=
  ⟨fun _ => Except.error "tts down", fun _ => Except.ok [2], fun _ _ _ => Except.ok [3]⟩

/-- Backends with every call failing, for the degradation/failure runs. -/
def sampleBackendsAllFail : Backends :=
  ⟨fun _ => Except.error "tts down", fun _ => Except.error "img down",
   fun _ _ _ => Except.error "disk full"⟩

end Core

/-! ## Supporting lemmas -/

theorem dropWhile_all {p : Char → Bool} {l : List Char} :
    l.dropWhile p = [] ↔ l.all p := by
  induction l with
  | nil => simp [List.dropWhile]
  | cons c rest ih =>
    by_cases h : p c <;> simp [List.dropWhile, h, ih]

theorem trimList_eq_nil_iff (l : List Char) :
    trimList l = [] ↔ l.all isJsSpace := by
  unfold trimList
  rw [List.reverse_eq_nil_iff, dropWhile_all, List.all_reverse, List.all_eq_true]
  constructor
  · intro h
    rw [List.all_eq_true]
    intro c hc
    rcases List.mem_append.mp ((List.takeWhile_append_dropWhile (p := isJsSpace) (l := l)) ▸ hc) with h1 | h2
    · exact List.mem_takeWhile_imp h1
    · exact h _ h2
  · intro h c hc
    exact (List.all_eq_true.mp h) c ((List.dropWhile_sublist isJsSpace).subset hc)

theorem isBlank_iff_trim_nil (s : String) :
    isBlank s = true ↔ trimList s.data = [] := by
  rw [trimList_eq_nil_iff]; rfl

theorem jobStep_terminal (j : Core.JobState) (e : Core.JobEvent)
    (h : Core.isTerminal j = true) : Core.jobStep j e = j := by
  cases j <;> cases e <;> simp_all [Core.isTerminal, Core.jobStep]

theorem joinSpace_ne_nil (ps : List (List Char)) (hne : ps ≠ [])
    (hall : ∀ p ∈ ps, p ≠ []) : Core.joinSpace ps ≠ [] := by
  match ps with
  | [] => exact absurd rfl hne
  | [p] => simpa [Core.joinSpace] using hall p (by simp)
  | p :: q :: rest => simp [Core.joinSpace]

theorem mergeTail_sound (ps : List (List Char)) (hne : ps ≠ [])
    (hall : ∀ p ∈ ps, p ≠ []) :
    Core.mergeTail ps ≠ [] ∧ ∀ p ∈ Core.mergeTail ps, p ≠ [] := by
  unfold Core.mergeTail
  split
  · exact ⟨hne, hall⟩
  · next hlen =>
    refine ⟨by simp, ?_⟩
    intro p hp
    rcases List.mem_append.mp hp with h1 | h2
    · exact hall p (List.take_subset _ _ h1)
    · rw [List.mem_singleton] at h2
      subst h2
      apply joinSpace_ne_nil
      · intro hd
        rw [List.drop_eq_nil_iff] at hd
        simp [Core.maxSegments] at hlen hd
        omega
      · intro q hq
        exact hall q (List.drop_subset _ _ hq)

theorem numberPieces_length (i : Nat) (ps : List (List Char)) :
    (Core.numberPieces i ps).length = ps.length := by
  induction ps generalizing i with
  | nil => rfl
  | cons p rest ih => simp [Core.numberPieces, ih]

theorem numberPieces_text (i : Nat) (ps : List (List Char)) :
    ∀ seg ∈ Core.numberPieces i ps, ∃ p ∈ ps, seg.text = String.mk p := by
  induction ps generalizing i with
  | nil => intro seg hseg; cases hseg
  | cons p rest ih =>
    intro seg hseg
    rcases hseg with _ | ⟨_, hmem⟩
    · exact ⟨p, by simp⟩
    · obtain ⟨q, hq, ht⟩ := ih (i + 1) seg hmem
      exact ⟨q, by simp [hq], ht⟩

theorem segmentText_ok (text : String) (h : trimList text.data ≠ []) :
    ∃ segs, Core.segmentText text = Except.ok segs ∧ segs ≠ [] ∧
      ∀ seg ∈ segs, 0 < seg.text.length := by
  unfold Core.segmentText
  rw [if_neg h]
  have hne : (if Core.sentencePieces text.data = [] then [trimList text.data]
      else Core.sentencePieces text.data) ≠ [] := by
    by_cases h0 : Core.sentencePieces text.data = [] <;> simp [h0]
  have hall : ∀ p ∈ (if Core.sentencePieces text.data = [] then [trimList text.data]
      else Core.sentencePieces text.data), p ≠ [] := by
    intro p hp
    by_cases h0 : Core.sentencePieces text.data = []
    · rw [if_pos h0, List.mem_singleton] at hp
      subst hp; exact h
    · rw [if_neg h0] at hp
      unfold Core.sentencePieces at hp
      simpa using (List.mem_filter.mp hp).2
  obtain ⟨hm1, hm2⟩ := mergeTail_sound _ hne hall
  refine ⟨_, rfl, ?_, ?_⟩
  · intro hnil
    apply hm1
    have hlen := numberPieces_length 0 (Core.mergeTail
      (if Core.sentencePieces text.data = [] then [trimList text.data]
       else Core.sentencePieces text.data))
    rw [hnil] at hlen
    exact List.eq_nil_of_length_eq_zero hlen.symm
  · intro seg hseg
    obtain ⟨p, hp, htext⟩ := numberPieces_text 0 _ seg hseg
    have hpne : p ≠ [] := hm2 p hp
    have hml : (String.mk p).length = p.length := rfl
    rw [htext, hml]
    exact List.length_pos.mpr hpne

theorem sum_take_le (l : List Nat) (k : Nat) : (l.take k).sum ≤ l.sum := by
  induction l generalizing k with
  | nil => simp
  | cons x rest ih =>
    cases k with
    | zero => simp
    | succ k' =>
      simp only [List.take_succ_cons, List.sum_cons]
      exact Nat.add_le_add_left (ih k') x

theorem sum_take_mono (l : List Nat) (k k' : Nat) (h : k ≤ k') :
    (l.take k).sum ≤ (l.take k').sum := by
  have heq : l.take k = (l.take k').take k := by
    rw [List.take_take, min_eq_left h]
  rw [heq]
  exact sum_take_le (l.take k') k

theorem sum_take_succ (l : List Nat) (i : Nat) (h : i < l.length) :
    (l.take (i + 1)).sum = (l.take i).sum + l.getD i 0 := by
  induction l generalizing i with
  | nil => simp at h
  | cons x rest ih =>
    cases i with
    | zero => simp
    | succ i' =>
      simp only [List.take_succ_cons, List.sum_cons, List.getD_cons_succ]
      rw [ih i' (by simpa using h)]
      omega

theorem sum_pos_of_mem (l : List Nat) (hne : l ≠ []) (hall : ∀ w ∈ l, 0 < w) :
    0 < l.sum := by
  cases l with
  | nil => exact absurd rfl hne
  | cons x rest =>
    have := hall x (by simp)
    simp only [List.sum_cons]
    omega

theorem telescope_sum (g : Nat → Nat) (hmono : ∀ k, g k ≤ g (k + 1)) (n : Nat) :
    (((List.range n).map (fun i => g (i + 1) - g i)).sum) = g n - g 0 := by
  induction n with
  | zero => simp
  | succ n' ih =>
    rw [List.range_succ, List.map_append, List.sum_append, ih]
    have h0 : g 0 ≤ g n' := (monotone_nat_of_le_succ hmono) (Nat.zero_le n')
    have h1 : g n' ≤ g (n' + 1) := hmono n'
    simp only [List.map_cons, List.map_nil, List.sum_cons, List.sum_nil]
    omega

theorem boundary_mono (ws : List Nat) (d k k' : Nat) (h : k ≤ k') :
    Core.boundary ws d k ≤ Core.boundary ws d k' :=
  Nat.div_le_div_right (Nat.mul_le_mul_left d (sum_take_mono ws k k' h))

theorem boundary_zero (ws : List Nat) (d : Nat) : Core.boundary ws d 0 = 0 := by
  simp [Core.boundary]

theorem boundary_full (ws : List Nat) (d : Nat) (hW : 0 < ws.sum) :
    Core.boundary ws d ws.length = d := by
  unfold Core.boundary
  rw [List.take_length, Nat.mul_div_cancel _ hW]

theorem captionSpans_length (ws : List Nat) (d : Nat) :
    (Core.captionSpans ws d).length = ws.length := by
  simp [Core.captionSpans]

theorem captionSpans_getD (ws : List Nat) (d i : Nat) (h : i < ws.length) :
    (Core.captionSpans ws d).getD i ⟨0, 0⟩ =
      ⟨Core.boundary ws d i, Core.boundary ws d (i + 1)⟩ := by
  unfold Core.captionSpans
  rw [List.getD_eq_getElem?_getD, List.getElem?_map, List.getElem?_range h]
  rfl

theorem captionSpans_sum (ws : List Nat) (d : Nat) (hW : 0 < ws.sum) :
    ((Core.captionSpans ws d).map Core.spanLen).sum = d := by
  unfold Core.captionSpans
  rw [List.map_map]
  have hrw : (Core.spanLen ∘ fun i =>
      (⟨Core.boundary ws d i, Core.boundary ws d (i + 1)⟩ : Core.Span)) =
      fun i => Core.boundary ws d (i + 1) - Core.boundary ws d i := rfl
  rw [hrw, telescope_sum (Core.boundary ws d)
    (fun k => boundary_mono ws d k (k + 1) (Nat.le_succ k)) ws.length]
  rw [boundary_full ws d hW, boundary_zero]
  omega

theorem boundary_bounds (ws : List Nat) (d k : Nat) (hW : 0 < ws.sum) :
    ws.sum * Core.boundary ws d k ≤ d * (ws.take k).sum ∧
      d * (ws.take k).sum < ws.sum * Core.boundary ws d k + ws.sum := by
  unfold Core.boundary
  constructor
  · rw [Nat.mul_comm]
    exact Nat.div_mul_le_self _ _
  · have := Nat.div_add_mod (d * (ws.take k).sum) ws.sum
    have hm := Nat.mod_lt (d * (ws.take k).sum) hW
    omega

theorem captionSpans_prop (ws : List Nat) (d i : Nat) (h : i < ws.length)
    (hW : 0 < ws.sum) :
    ws.sum * Core.spanLen ((Core.captionSpans ws d).getD i ⟨0, 0⟩) <
        d * ws.getD i 0 + ws.sum ∧
      d * ws.getD i 0 <
        ws.sum * Core.spanLen ((Core.captionSpans ws d).getD i ⟨0, 0⟩) + ws.sum := by
  rw [captionSpans_getD ws d i h]
  have hq : Core.boundary ws d i ≤ Core.boundary ws d (i + 1) :=
    boundary_mono ws d i (i + 1) (Nat.le_succ i)
  obtain ⟨t, ht⟩ := Nat.le.dest hq
  have hlen : Core.spanLen ⟨Core.boundary ws d i, Core.boundary ws d (i + 1)⟩ =
      Core.boundary ws d (i + 1) - Core.boundary ws d i := rfl
  have hlen2 : Core.boundary ws d (i + 1) - Core.boundary ws d i = t := by omega
  rw [hlen, hlen2]
  have h1 := boundary_bounds ws d i hW
  have h2 := boundary_bounds ws d (i + 1) hW
  have hsucc : (ws.take (i + 1)).sum = (ws.take i).sum + ws.getD i 0 :=
    sum_take_succ ws i h
  rw [hsucc] at h2
  rw [← ht] at h2
  rw [Nat.mul_add] at h2
  rw [Nat.mul_add] at h2
  omega

theorem runPipeline_eq_bigStep (b : Core.Backends) (req : Core.GenerationRequest) :
    Core.runPipeline b req = Core.pipelineBigStep b req := by
  unfold Core.runPipeline Core.kalaaStages Core.pipelineBigStep
  cases hseg : Core.segmentText req.text with
  | error e =>
    simp only [Core.runStagesE, Core.segStage, hseg]
  | ok segs =>
    simp only [Core.runStagesE, Core.segStage, hseg]
    cases hsp : b.speech req.text with
    | ok bd =>
      simp only [Core.runStagesE, Core.narStage, Core.narrationSynthesizer, hsp]
      by_cases hsr : Core.sceneReasons b.image segs = [] <;>
        by_cases hcap : bd.2 = 0 ∨ segs = [] <;>
          simp [Core.runStagesE, Core.sceneStage, Core.capStage, Core.compStage,
            Core.narrDurationOf, Core.audioBytesOf, Core.logDegraded, Core.silentAudio,
            hsr, hcap]
      all_goals
        cases b.compose
          ((List.map (Core.sceneImage b.image) segs).zip
            (Core.captionSpans (List.map Core.segWeight segs) bd.2)) bd.1
          (if req.subtitlesEnabled = true then
            Core.mkCaptions segs (Core.captionSpans (List.map Core.segWeight segs) bd.2)
          else []) <;>
        simp [Core.logDegraded, Core.initState]
    | error e =>
      simp only [Core.runStagesE, Core.narStage, Core.narrationSynthesizer, hsp]
      by_cases hsr : Core.sceneReasons b.image segs = [] <;>
        by_cases hcap : Core.estimateDurationMs req.text = 0 ∨ segs = [] <;>
          simp [Core.runStagesE, Core.sceneStage, Core.capStage, Core.compStage,
            Core.narrDurationOf, Core.audioBytesOf, Core.logDegraded, Core.silentAudio,
            hsr, hcap]
      all_goals
        cases b.compose
          ((List.map (Core.sceneImage b.image) segs).zip
            (Core.captionSpans (List.map Core.segWeight segs)
              (Core.estimateDurationMs req.text))) []
          (if req.subtitlesEnabled = true then
            Core.mkCaptions segs
              (Core.captionSpans (List.map Core.segWeight segs)
                (Core.estimateDurationMs req.text))
          else []) <;>
        simp [Core.logDegraded, Core.initState]

theorem runPipeline_ok_shape (b : Core.Backends) (req : Core.GenerationRequest)
    (st : Core.PipeState) (h : Core.runPipeline b req = Except.ok st) :
    ∃ segs a, Core.segmentText req.text = Except.ok segs ∧
      st.segments = segs ∧ st.audio = some a ∧ a.durationMs ≠ 0 ∧ segs ≠ [] ∧
      st.spans = Core.captionSpans (segs.map Core.segWeight) a.durationMs := by
  rw [runPipeline_eq_bigStep] at h
  unfold Core.pipelineBigStep at h
  cases hseg : Core.segmentText req.text with
  | error e =>
    rw [hseg] at h
    exact Except.noConfusion h
  | ok segs =>
    rw [hseg] at h
    cases hsp : b.speech req.text with
    | ok bd =>
      by_cases hcap : bd.2 = 0 ∨ segs = []
      · simp [hsp, hcap] at h
      · simp [hsp, hcap] at h
        split at h
        · next v heq =>
          injection h with h2
          subst h2
          exact ⟨segs, ⟨bd.1, bd.2⟩, rfl, rfl, rfl,
            fun h0 => hcap (Or.inl h0), fun hs => hcap (Or.inr hs), rfl⟩
        · exact absurd h (by simp)
    | error e =>
      by_cases hcap : Core.estimateDurationMs req.text = 0 ∨ segs = []
      · simp [hsp, hcap, Core.silentAudio] at h
      · simp [hsp, hcap, Core.silentAudio] at h
        split at h
        · next v heq =>
          injection h with h2
          subst h2
          exact ⟨segs, Core.silentAudio (Core.estimateDurationMs req.text), rfl, rfl, rfl,
            fun h0 => hcap (Or.inl h0), fun hs => hcap (Or.inr hs), rfl⟩
        · exact absurd h (by simp)

theorem stripped_not_b64 (c : Char) (h : isB64Char c = true) :
    strippedByCleaning c = false := by
  by_cases h1 : c = '\x0d'
  · subst h1; exact absurd h (by decide)
  by_cases h2 : c = '\n'
  · subst h2; exact absurd h (by decide)
  by_cases h3 : c = ' '
  · subst h3; exact absurd h (by decide)
  by_cases h4 : c = '\t'
  · subst h4; exact absurd h (by decide)
  by_cases h5 : c = '\x0b'
  · subst h5; exact absurd h (by decide)
  by_cases h6 : c = '\x0c'
  · subst h6; exact absurd h (by decide)
  simp [strippedByCleaning, isJsSpace, h1, h2, h3, h4, h5, h6]

theorem jsClean_of_b64 (l : List Char)
    (h : ∀ c ∈ l, isB64Char c = true ∨ c = '=') : jsCleanB64 l = l := by
  unfold jsCleanB64
  rw [List.filter_eq_self]
  intro c hc
  rcases h c hc with hb | rfl
  · simp [stripped_not_b64 c hb]
  · decide

theorem b64Valid_iff (l : List Char) :
    b64Valid l = true ↔
      ∃ b k, k ≤ 2 ∧ l = b ++ List.replicate k '=' ∧
        ∀ c ∈ b, isB64Char c = true := by
  induction l with
  | nil =>
    constructor
    · intro _
      exact ⟨[], 0, by omega, by simp, by simp⟩
    · intro _
      rfl
  | cons c rest ih =>
    by_cases hc : isB64Char c = true
    · rw [show b64Valid (c :: rest) = b64Valid rest from by simp [b64Valid, hc]]
      rw [ih]
      constructor
      · rintro ⟨b, k, hk, heq, hb⟩
        refine ⟨c :: b, k, hk, by simp [heq], ?_⟩
        intro x hx
        rcases List.mem_cons.mp hx with rfl | hx'
        · exact hc
        · exact hb x hx'
      · rintro ⟨b, k, hk, heq, hb⟩
        cases b with
        | nil =>
          rw [List.nil_append] at heq
          have hcq : c = '=' := by
            cases k with
            | zero => simp at heq
            | succ k' =>
              rw [List.replicate_succ] at heq
              exact (List.cons.injEq _ _ _ _ ▸ heq).1
          rw [hcq] at hc
          exact absurd hc (by decide)
        | cons c' b' =>
          rw [List.cons_append] at heq
          obtain ⟨rfl, h2⟩ := List.cons.injEq _ _ _ _ ▸ heq
          exact ⟨b', k, hk, h2, fun x hx => hb x (List.mem_cons_of_mem _ hx)⟩
    · rw [show b64Valid (c :: rest) = (c == '=' && (rest == [] || rest == ['='])) from by
        simp [b64Valid, hc]]
      constructor
      · intro hcond
        simp only [Bool.and_eq_true, Bool.or_eq_true, beq_iff_eq] at hcond
        obtain ⟨rfl, hrest⟩ := hcond
        rcases hrest with rfl | rfl
        · exact ⟨[], 1, by omega, by simp [List.replicate], by simp⟩
        · exact ⟨[], 2, by omega, by simp [List.replicate], by simp⟩
      · rintro ⟨b, k, hk, heq, hb⟩
        cases b with
        | cons c' b' =>
          rw [List.cons_append] at heq
          obtain ⟨rfl, -⟩ := List.cons.injEq _ _ _ _ ▸ heq
          exact absurd (hb c (List.mem_cons_self _ _)) hc
        | nil =>
          rw [List.nil_append] at heq
          cases k with
          | zero => simp at heq
          | succ k' =>
            rw [List.replicate_succ] at heq
            obtain ⟨rfl, hrest⟩ := List.cons.injEq _ _ _ _ ▸ heq
            simp only [Bool.and_eq_true, Bool.or_eq_true, beq_iff_eq, beq_self_eq_true,
              true_and]
            have hk1 : k' ≤ 1 := by omega
            interval_cases k'
            · left; simpa using hrest
            · right; simpa [List.replicate] using hrest

theorem padLen_le_two (n : Nat) (h : n % 4 ≠ 1) : padLen n ≤ 2 := by
  unfold padLen
  omega

theorem padLen_add (n k : Nat) (hk : k ≤ padLen n) :
    k + padLen (n + k) = padLen n := by
  unfold padLen at *
  omega

theorem b64Pad_append_replicate (l : List Char) (k : Nat)
    (hk : k ≤ padLen l.length) :
    b64Pad (l ++ List.replicate k '=') = b64Pad l := by
  unfold b64Pad
  rw [List.append_assoc, ← List.replicate_add, List.length_append,
    List.length_replicate, padLen_add l.length k hk]

theorem segmentText_pos (text : String) (segs : List Core.Segment)
    (h : Core.segmentText text = Except.ok segs) :
    ∀ seg ∈ segs, 0 < seg.text.length := by
  by_cases ht : trimList text.data = []
  · unfold Core.segmentText at h
    rw [if_pos ht] at h
    exact Except.noConfusion h
  · obtain ⟨segs2, h2, _, hpos⟩ := segmentText_ok text ht
    have h3 := h.symm.trans h2
    injection h3 with h4
    subst h4
    exact hpos

theorem countWordsAux_pos (l : List Char)
    (h : ∃ c ∈ l, isJsSpace c = false) : 0 < Core.countWordsAux l false := by
  induction l with
  | nil =>
    obtain ⟨c, hc, _⟩ := h
    cases hc
  | cons c rest ih =>
    unfold Core.countWordsAux
    by_cases hc : isJsSpace c = true
    · rw [if_pos hc]
      apply ih
      obtain ⟨c', hc', hns⟩ := h
      rcases List.mem_cons.mp hc' with rfl | h'
      · rw [hc] at hns; cases hns
      · exact ⟨c', h', hns⟩
    · rw [if_neg hc, if_neg (by simp : ¬(false = true))]
      omega

theorem estimate_pos (text : String) (h : trimList text.data ≠ []) :
    0 < Core.estimateDurationMs text := by
  have hex : ∃ c ∈ text.data, isJsSpace c = false := by
    by_contra hno
    push_neg at hno
    apply h
    rw [trimList_eq_nil_iff, List.all_eq_true]
    intro c hc
    have := hno c hc
    cases hb : isJsSpace c
    · exact absurd hb this
    · rfl
  have hwc : 0 < Core.wordCount text.data := countWordsAux_pos _ hex
  unfold Core.estimateDurationMs
  have h1 : 150 ≤ Core.wordCount text.data * 60000 := by
    have : 1 * 60000 ≤ Core.wordCount text.data * 60000 :=
      Nat.mul_le_mul_right 60000 hwc
    omega
  exact Nat.div_pos h1 (by norm_num)

/-! ## Claims -/

/-- Claim C4: once a job has reached a terminal state (`completed` or
`failed`), no subsequent event sequence transitions it out of that
state. -/
theorem terminal_states_absorb (j : Core.JobState) (es : List Core.JobEvent)
    (h : Core.isTerminal j = true) : es.foldl Core.jobStep j = j := by
  induction es with
  | nil => rfl
  | cons e rest ih =>
    simp only [List.foldl_cons, jobStep_terminal j e h, ih]

/-- Witness for C4: a completed job absorbs a cancel followed by a worker
assignment. -/
theorem terminal_states_absorb_witness :
    Core.isTerminal Core.JobState.completed = true ∧
      [Core.JobEvent.cancel, Core.JobEvent.assignWorker].foldl Core.jobStep
        Core.JobState.completed = Core.JobState.completed :=
  ⟨by decide, terminal_states_absorb Core.JobState.completed
    [Core.JobEvent.cancel, Core.JobEvent.assignWorker] (by decide)⟩

/-- Claim C5: `GetArtifact` answers `NotFound` for unknown identifiers,
`NotReady` for queued/running jobs, `Gone` for failed jobs, and for a
completed job returns its artifact bytes, identically on repeated
(read-only) fetches. -/
theorem getArtifact_contract (tbl : Core.JobTable) (id : Nat) :
    (tbl.lookup id = none → Core.getArtifact tbl id = .error .notFound) ∧
    (∀ j, tbl.lookup id = some j →
      (j.state = .queued ∨ ∃ s, j.state = .running s) →
      Core.getArtifact tbl id = .error .notReady) ∧
    (∀ j s r, tbl.lookup id = some j → j.state = .failed s r →
      Core.getArtifact tbl id = .error .gone) ∧
    (∀ j, tbl.lookup id = some j → j.state = .completed →
      Core.getArtifact tbl id = .ok j.artifact ∧
      (Core.getArtifactOp (Core.getArtifactOp tbl id).2 id).1 =
        (Core.getArtifactOp tbl id).1) := by
  refine ⟨?_, ?_, ?_, ?_⟩
  · intro h; simp [Core.getArtifact, h]
  · intro j hj hst
    rcases hst with h | ⟨s, h⟩ <;> simp [Core.getArtifact, hj, h]
  · intro j s r hj hst; simp [Core.getArtifact, hj, hst]
  · intro j hj hst
    exact ⟨by simp [Core.getArtifact, hj, hst], rfl⟩

/-- Witness for C5: on a concrete four-entry job table, every branch of
the contract is exercised. -/
theorem getArtifact_contract_witness :
    Core.getArtifact
        [(1, ⟨Core.JobState.completed, [7, 8]⟩),
         (2, ⟨Core.JobState.failed Core.StageName.composing "boom", []⟩),
         (3, ⟨Core.JobState.queued, []⟩)] 4 = .error .notFound ∧
      Core.getArtifact
        [(1, ⟨Core.JobState.completed, [7, 8]⟩),
         (2, ⟨Core.JobState.failed Core.StageName.composing "boom", []⟩),
         (3, ⟨Core.JobState.queued, []⟩)] 3 = .error .notReady ∧
      Core.getArtifact
        [(1, ⟨Core.JobState.completed, [7, 8]⟩),
         (2, ⟨Core.JobState.failed Core.StageName.composing "boom", []⟩),
         (3, ⟨Core.JobState.queued, []⟩)] 2 = .error .gone ∧
      Core.getArtifact
        [(1, ⟨Core.JobState.completed, [7, 8]⟩),
         (2, ⟨Core.JobState.failed Core.StageName.composing "boom", []⟩),
         (3, ⟨Core.JobState.queued, []⟩)] 1 = .ok [7, 8] :=
  ⟨(getArtifact_contract _ 4).1 (by decide),
   (getArtifact_contract _ 3).2.1 ⟨Core.JobState.queued, []⟩ (by decide) (Or.inl rfl),
   (getArtifact_contract _ 2).2.2.1
     ⟨Core.JobState.failed Core.StageName.composing "boom", []⟩
     Core.StageName.composing "boom" (by decide) rfl,
   ((getArtifact_contract _ 1).2.2.2 ⟨Core.JobState.completed, [7, 8]⟩ (by decide) rfl).1⟩

/-- Claim C7 (code bug): the audio client is configured with its stated
60-second timeout, but the JSON client is configured with 300000000 ms
(not the 30 seconds its own comment states) and the form client used by
the illustration/storyboard calls with 30000000 ms (not the 10 minutes its
own comment states). -/
theorem timeout_configuration (u : String) :
    (createApiClient u).timeoutMs = 300000000 ∧
      (createApiClient u).timeoutMs ≠ 30 * 1000 ∧
      (createFormApiClient u).timeoutMs = 30000000 ∧
      (createFormApiClient u).timeoutMs ≠ 10 * 60 * 1000 ∧
      (createAudioApiClient u).timeoutMs = 60 * 1000 ∧
      (∀ storage plan, generateIllustration storage = .ok plan →
        plan.client.timeoutMs = 30000000) ∧
      (∀ storage plan, generateStoryboard storage = .ok plan →
        plan.client.timeoutMs = 30000000) := by
  refine ⟨rfl, show (300000000 : Nat) ≠ 30 * 1000 by decide, rfl,
    show (30000000 : Nat) ≠ 10 * 60 * 1000 by decide, rfl, ?_, ?_⟩
  · intro storage plan h
    unfold generateIllustration at h
    by_cases hb : (getSettings storage).illustrationBaseUrl = "" <;>
      simp [hb] at h
    subst h; rfl
  · intro storage plan h
    unfold generateStoryboard at h
    by_cases hb : (getSettings storage).illustrationBaseUrl = "" <;>
      simp [hb] at h
    subst h; rfl

/-- Witness for C7: with an illustration base URL configured, the
illustration call's request plan carries the form client's 30000000 ms
timeout. -/
theorem timeout_configuration_witness :
    generateIllustration (StorageState.stored ⟨"", "http://x", ""⟩) =
        Except.ok ⟨createFormApiClient "http://x", "/generate-illustration"⟩ ∧
      (⟨createFormApiClient "http://x", "/generate-illustration"⟩ :
          RequestPlan).client.timeoutMs = 30000000 :=
  ⟨by rfl,
   (timeout_configuration "http://x").2.2.2.2.2.1
     (StorageState.stored ⟨"", "http://x", ""⟩)
     ⟨createFormApiClient "http://x", "/generate-illustration"⟩ (by rfl)⟩

/-- Claim C9: whenever the stored settings are absent, unparsable, or hold
an empty base URL for the relevant backend, each generation operation
fails with its `... API URL not configured` message and produces no
request plan (so no network request is issued). -/
theorem missing_url_rejected (storage : StorageState) :
    ((storage = .noWindow ∨ storage = .absent ∨ ∃ raw, storage = .unparsable raw) →
      getSettings storage = emptySettings) ∧
    ((getSettings storage).infographicBaseUrl = "" →
      generateInfographic storage = .error "Infographic API URL not configured" ∧
      generateGraph storage = .error "Infographic API URL not configured") ∧
    ((getSettings storage).illustrationBaseUrl = "" →
      generateIllustration storage = .error "Illustration API URL not configured" ∧
      generateStoryboard storage = .error "Illustration API URL not configured") ∧
    ((getSettings storage).audioBaseUrl = "" →
      generateAudio storage = .error "Audio API URL not configured") := by
  have hinfo : handleApiError ⟨none, false, some "Infographic API URL not configured"⟩ =
      "Infographic API URL not configured" := by decide
  have hillus : handleApiError ⟨none, false, some "Illustration API URL not configured"⟩ =
      "Illustration API URL not configured" := by decide
  have haudio : handleApiError ⟨none, false, some "Audio API URL not configured"⟩ =
      "Audio API URL not configured" := by decide
  refine ⟨?_, ?_, ?_, ?_⟩
  · rintro (rfl | rfl | ⟨raw, rfl⟩) <;> rfl
  · intro h
    constructor <;>
      simp [generateInfographic, generateGraph, h, hinfo]
  · intro h
    constructor <;>
      simp [generateIllustration, generateStoryboard, h, hillus]
  · intro h
    simp [generateAudio, h, haudio]

/-- Witness for C9: with nothing stored, the settings are empty and the
audio and infographic operations are rejected before any request. -/
theorem missing_url_rejected_witness :
    getSettings StorageState.absent = emptySettings ∧
      generateAudio StorageState.absent = .error "Audio API URL not configured" ∧
      generateInfographic StorageState.absent =
        .error "Infographic API URL not configured" :=
  ⟨(missing_url_rejected StorageState.absent).1 (Or.inr (Or.inl rfl)),
   (missing_url_rejected StorageState.absent).2.2.2 (by decide),
   ((missing_url_rejected StorageState.absent).2.1 (by decide)).1⟩

/-- Counterexample for C10: an error with no response and no request whose
own message mentions CORS is not returned as its own message (nor as the
generic fallback) — `handleApiError` substitutes the fixed CORS-guidance
message. -/
theorem handleApiError_cors_cex :
    handleApiError ⟨none, false, some "CORS request blocked"⟩ ≠ "CORS request blocked" ∧
      handleApiError ⟨none, false, some "CORS request blocked"⟩ ≠ "An unexpected error occurred" ∧
      handleApiError ⟨none, false, some "CORS request blocked"⟩ = corsMessage :=
  ⟨by decide, by decide, by decide⟩

/-- Claim C10 (amended): `handleApiError` is total; with a server response
it prefixes by status (400/401/403/404/429/500 and `HTTP <status>: `
otherwise); with a request but no response it returns the CORS-guidance
message when the error message mentions CORS and a connection-failure
message otherwise; with neither it returns the CORS-guidance message when
the message mentions CORS, else the error's own non-empty message or the
generic fallback. -/
theorem handleApiError_branches (e : JsError) :
    (∀ resp, e.response = some resp →
      ((resp.status = 400 → ∃ m, handleApiError e = "Bad request: " ++ m) ∧
       (resp.status = 401 → ∃ m, handleApiError e = "Unauthorized: " ++ m) ∧
       (resp.status = 403 → ∃ m, handleApiError e = "Forbidden: " ++ m) ∧
       (resp.status = 404 → ∃ m, handleApiError e = "Not found: " ++ m) ∧
       (resp.status = 429 → ∃ m, handleApiError e = "Rate limited: " ++ m) ∧
       (resp.status = 500 → ∃ m, handleApiError e = "Server error: " ++ m) ∧
       (resp.status ∉ ([400, 401, 403, 404, 429, 500] : List Nat) →
         ∃ m, handleApiError e = "HTTP " ++ toString resp.status ++ ": " ++ m))) ∧
    (e.response = none → e.hasRequest = true →
      handleApiError e =
        if includesCORS e.message then corsMessage
        else "No response from server. Please check your connection.") ∧
    (e.response = none → e.hasRequest = false →
      handleApiError e =
        if includesCORS e.message then corsMessage
        else jsOrStr e.message "An unexpected error occurred") := by
  obtain ⟨resp, hasReq, msg⟩ := e
  refine ⟨?_, ?_, ?_⟩
  · rintro r hr
    cases resp with
    | none => cases hr
    | some r0 =>
      obtain ⟨st, de, dm⟩ := r0
      obtain rfl : r = ⟨st, de, dm⟩ := (Option.some_inj.mp hr).symm
      refine ⟨?_, ?_, ?_, ?_, ?_, ?_, ?_⟩ <;> intro hs
      · cases hs; exact ⟨_, rfl⟩
      · cases hs; exact ⟨_, rfl⟩
      · cases hs; exact ⟨_, rfl⟩
      · cases hs; exact ⟨_, rfl⟩
      · cases hs; exact ⟨_, rfl⟩
      · cases hs; exact ⟨_, rfl⟩
      · simp only [List.mem_cons, List.not_mem_nil, or_false, not_or] at hs
        obtain ⟨h1, h2, h3, h4, h5, h6⟩ := hs
        refine ⟨jsOrStr de (jsOrStr dm "Unknown error"), ?_⟩
        simp only [handleApiError]
  · rintro rfl rfl
    rfl
  · rintro rfl rfl
    rfl

/-- Claim C8: `base64ToBlobUrl` first strips carriage returns, newlines
and whitespace; validity of the remainder is exactly membership in the
base64 alphabet with at most two trailing `=` (anything else throws and
yields no URL); valid input is padded with `=` to a multiple of four
before decoding; hence inputs differing only in embedded whitespace or in
missing padding decode to the same bytes. -/
theorem base64ToBlobUrl_contract (s : String) :
    (b64Valid (jsCleanB64 s.data) = true ↔
      ∃ b k, k ≤ 2 ∧ jsCleanB64 s.data = b ++ List.replicate k '=' ∧
        ∀ c ∈ b, isB64Char c = true) ∧
    (b64Valid (jsCleanB64 s.data) = false →
      base64ToBlobUrl s =
        Except.error "Failed to process image data: Invalid base64 format") ∧
    ((b64Pad (jsCleanB64 s.data)).length % 4 = 0) ∧
    (∀ bytes, b64Valid (jsCleanB64 s.data) = true →
      atobDecode (b64Pad (jsCleanB64 s.data)) = some bytes →
      base64ToBlobUrl s = Except.ok bytes) ∧
    (∀ s₂ : String, jsCleanB64 s.data = jsCleanB64 s₂.data →
      base64ToBlobUrl s = base64ToBlobUrl s₂) ∧
    (∀ k, (∀ c ∈ s.data, isB64Char c = true) → s.data.length % 4 ≠ 1 →
      k ≤ padLen s.data.length →
      base64ToBlobUrl (String.mk (s.data ++ List.replicate k '=')) =
        base64ToBlobUrl s) := by
  refine ⟨b64Valid_iff _, ?_, ?_, ?_, ?_, ?_⟩
  · intro h
    unfold base64ToBlobUrl
    rw [if_neg (by simp [h])]
  · unfold b64Pad padLen
    rw [List.length_append, List.length_replicate]
    omega
  · intro bytes hv hd
    unfold base64ToBlobUrl
    rw [if_pos hv]
    simp only []
    rw [hd]
  · intro s₂ h
    unfold base64ToBlobUrl
    rw [h]
  · intro k hall hm hk
    have hclean : jsCleanB64 s.data = s.data :=
      jsClean_of_b64 _ (fun c hc => Or.inl (hall c hc))
    have hcleanp : jsCleanB64 (s.data ++ List.replicate k '=') =
        s.data ++ List.replicate k '=' := by
      apply jsClean_of_b64
      intro c hc
      rcases List.mem_append.mp hc with h1 | h2
      · exact Or.inl (hall c h1)
      · exact Or.inr (List.eq_of_mem_replicate h2)
    have hk2 : k ≤ 2 := le_trans hk (padLen_le_two _ hm)
    have hvp : b64Valid (s.data ++ List.replicate k '=') = true :=
      (b64Valid_iff _).mpr ⟨s.data, k, hk2, rfl, hall⟩
    have hv : b64Valid s.data = true :=
      (b64Valid_iff _).mpr ⟨s.data, 0, by omega, by simp, hall⟩
    have hmk : (String.mk (s.data ++ List.replicate k '=')).data =
        s.data ++ List.replicate k '=' := rfl
    unfold base64ToBlobUrl
    rw [hmk, hcleanp, hclean, if_pos hvp, if_pos hv,
      b64Pad_append_replicate s.data k hk]

/-- Witness for C8: `"QQ"` decodes identically with its padding restored,
and a string with a foreign character is rejected with the
invalid-format error. -/
theorem base64ToBlobUrl_contract_witness :
    base64ToBlobUrl (String.mk (("QQ" : String).data ++ List.replicate 2 '=')) =
        base64ToBlobUrl "QQ" ∧
      base64ToBlobUrl "Q*" =
        Except.error "Failed to process image data: Invalid base64 format" :=
  ⟨(base64ToBlobUrl_contract "QQ").2.2.2.2.2 2 (by decide) (by decide) (by decide),
   (base64ToBlobUrl_contract "Q*").2.1 (by decide)⟩

/-- Claim C1: a stage returning `Fatal` moves the job directly to `failed`
with that stage's name and reason, and no later stage executes; in
particular a failing Composer ends the job `failed` at `composing` even
when narration and every scene already degraded. -/
theorem fatal_aborts_pipeline :
    (∀ (pre post : List (Core.StageName × (Core.PipeState → Core.StageResult Core.PipeState)))
        (n : Core.StageName) (f : Core.PipeState → Core.StageResult Core.PipeState)
        (st st' : Core.PipeState) (r : String),
      Core.runStagesE pre st = Except.ok st' →
      f st' = Core.StageResult.fatal r →
        Core.runStagesE (pre ++ (n, f) :: post) st = Except.error (n, r) ∧
        Core.jobStateOf (Core.runStagesE (pre ++ (n, f) :: post) st) =
          Core.JobState.failed n r ∧
        Core.executedStages (pre ++ (n, f) :: post) st =
          Core.executedStages pre st ++ [n]) ∧
    (∀ (b : Core.Backends) (req : Core.GenerationRequest) (e : String),
      (∃ es, b.speech req.text = Except.error es) →
      (∀ concept, ∃ ei, b.image concept = Except.error ei) →
      (∀ x y z, b.compose x y z = Except.error e) →
      isBlank req.text = false →
      Core.jobStateOf (Core.runPipeline b req) =
        Core.JobState.failed Core.StageName.composing ("CompositionError: " ++ e)) := by
  constructor
  · intro pre post n f st st' r
    induction pre generalizing st with
    | nil =>
      intro hpre hf
      simp only [Core.runStagesE] at hpre
      injection hpre with h2
      subst h2
      refine ⟨?_, ?_, ?_⟩ <;>
        simp [Core.runStagesE, Core.executedStages, Core.jobStateOf, hf]
    | cons mg rest ih =>
      obtain ⟨m, g⟩ := mg
      intro hpre hf
      cases hg : g st with
      | success st1 =>
        have hpre2 : Core.runStagesE rest st1 = Except.ok st' := by
          simpa [Core.runStagesE, hg] using hpre
        obtain ⟨ha, hb, hc⟩ := ih st1 hpre2 hf
        refine ⟨?_, ?_, ?_⟩
        · simpa [Core.runStagesE, hg] using ha
        · rw [show Core.runStagesE (((m, g) :: rest) ++ (n, f) :: post) st =
            Core.runStagesE (rest ++ (n, f) :: post) st1 from by
              simp [Core.runStagesE, hg]]
          exact hb
        · simp only [List.cons_append, Core.executedStages, hg, List.append_eq]
          rw [hc]
      | degraded st1 rr =>
        have hpre2 : Core.runStagesE rest (Core.logDegraded m rr st1) = Except.ok st' := by
          simpa [Core.runStagesE, hg] using hpre
        obtain ⟨ha, hb, hc⟩ := ih (Core.logDegraded m rr st1) hpre2 hf
        refine ⟨?_, ?_, ?_⟩
        · simpa [Core.runStagesE, hg] using ha
        · rw [show Core.runStagesE (((m, g) :: rest) ++ (n, f) :: post) st =
            Core.runStagesE (rest ++ (n, f) :: post) (Core.logDegraded m rr st1) from by
              simp [Core.runStagesE, hg]]
          exact hb
        · simp only [List.cons_append, Core.executedStages, hg, List.append_eq]
          rw [hc]
      | fatal rr =>
        simp [Core.runStagesE, hg] at hpre
  · intro b req e hsp himg hcomp hblank
    have ht : trimList req.text.data ≠ [] := by
      intro hx
      rw [← isBlank_iff_trim_nil] at hx
      rw [hx] at hblank
      cases hblank
    obtain ⟨segs, hseg, hne, _⟩ := segmentText_ok req.text ht
    have hest := estimate_pos req.text ht
    obtain ⟨es, hspe⟩ := hsp
    have hcap : ¬(Core.estimateDurationMs req.text = 0 ∨ segs = []) := by
      rintro (h0 | hs)
      · omega
      · exact hne hs
    rw [runPipeline_eq_bigStep]
    unfold Core.pipelineBigStep
    rw [hseg]
    simp [hspe, hcap, Core.silentAudio, hcomp, Core.jobStateOf]

/-- Witness for C1: a one-stage pipeline whose only stage is fatal fails
there, and the all-failing backends end the sample job failed at
composing. -/
theorem fatal_aborts_pipeline_witness :
    Core.runStagesE
        ([] ++ (Core.StageName.composing,
          fun _ => Core.StageResult.fatal "boom") :: []) Core.initState =
      Except.error (Core.StageName.composing, "boom") ∧
    Core.jobStateOf (Core.runPipeline Core.sampleBackendsAllFail Core.sampleRequest) =
      Core.JobState.failed Core.StageName.composing ("CompositionError: " ++ "disk full") :=
  ⟨(fatal_aborts_pipeline.1 [] []
      Core.StageName.composing (fun _ => Core.StageResult.fatal "boom")
      Core.initState Core.initState "boom" rfl rfl).1,
   fatal_aborts_pipeline.2 Core.sampleBackendsAllFail Core.sampleRequest "disk full"
     ⟨"tts down", rfl⟩ (fun _ => ⟨"img down", rfl⟩) (fun _ _ _ => rfl) (by decide)⟩

/-- Claim C2: the NarrationSynthesizer never returns `Fatal`; on a speech
backend error it returns `Degraded` with the silent artifact whose
duration is the words-per-minute estimate of the text; and a job whose
speech backend fails still completes, with a `Degraded(narrating)` entry
recorded. -/
theorem narration_degrades_gracefully :
    (∀ (speech : String → Except String (Core.Bytes × Nat)) (text r : String),
      Core.narrationSynthesizer speech text ≠ Core.StageResult.fatal r) ∧
    (∀ (speech : String → Except String (Core.Bytes × Nat)) (text e : String),
      speech text = Except.error e →
      Core.narrationSynthesizer speech text =
        Core.StageResult.degraded
          (Core.silentAudio (Core.estimateDurationMs text)) e) ∧
    (∀ (b : Core.Backends) (req : Core.GenerationRequest) (e : String),
      b.speech req.text = Except.error e →
      (∀ x y z, ∃ v, b.compose x y z = Except.ok v) →
      isBlank req.text = false →
      ∃ st, Core.runPipeline b req = Except.ok st ∧
        Core.jobStateOf (Core.runPipeline b req) = Core.JobState.completed ∧
        (Core.StageName.narrating, e) ∈ st.degradedLog ∧
        st.audio = some (Core.silentAudio (Core.estimateDurationMs req.text))) := by
  refine ⟨?_, ?_, ?_⟩
  · intro speech text r
    unfold Core.narrationSynthesizer
    cases hsp : speech text <;> simp
  · intro speech text e h
    unfold Core.narrationSynthesizer
    rw [h]
  · intro b req e hsp hcomp hblank
    have ht : trimList req.text.data ≠ [] := by
      intro hx
      rw [← isBlank_iff_trim_nil] at hx
      rw [hx] at hblank
      cases hblank
    obtain ⟨segs, hseg, hne, _⟩ := segmentText_ok req.text ht
    have hest := estimate_pos req.text ht
    have hcap : ¬(Core.estimateDurationMs req.text = 0 ∨ segs = []) := by
      rintro (h0 | hs)
      · omega
      · exact hne hs
    rw [runPipeline_eq_bigStep]
    unfold Core.pipelineBigStep
    rw [hseg]
    simp only [hsp]
    obtain ⟨v, hv⟩ := hcomp
      ((segs.map (Core.sceneImage b.image)).zip
        (Core.captionSpans (segs.map Core.segWeight)
          (Core.silentAudio (Core.estimateDurationMs req.text)).durationMs))
      (Core.silentAudio (Core.estimateDurationMs req.text)).bytes
      (if req.subtitlesEnabled = true then
        Core.mkCaptions segs
          (Core.captionSpans (segs.map Core.segWeight)
            (Core.silentAudio (Core.estimateDurationMs req.text)).durationMs)
      else [])
    simp [hcap, Core.silentAudio, Core.jobStateOf] at hv ⊢
    rw [hv]
    refine ⟨_, rfl, rfl, ?_, rfl⟩
    simp

/-- Witness for C2: with the speech backend down and composition healthy,
the sample job completes with the silent 2-word (800 ms) narration and the
degradation recorded. -/
theorem narration_degrades_gracefully_witness :
    ∃ st, Core.runPipeline Core.sampleBackendsNoSpeech Core.sampleRequest =
        Except.ok st ∧
      Core.jobStateOf (Core.runPipeline Core.sampleBackendsNoSpeech Core.sampleRequest) =
        Core.JobState.completed ∧
      (Core.StageName.narrating, "tts down") ∈ st.degradedLog ∧
      st.audio = some (Core.silentAudio
        (Core.estimateDurationMs Core.sampleRequest.text)) :=
  narration_degrades_gracefully.2.2 Core.sampleBackendsNoSpeech Core.sampleRequest
    "tts down" rfl (fun _ _ _ => ⟨[3], rfl⟩) (by decide)

/-- Claim C3: for every completed job, the per-segment caption time spans
are ordered, contiguous, non-overlapping (each span ends where the next
begins, starting at zero), sum exactly to the narration duration, and each
span length is within one rounding unit of the exact proportional share of
its segment's text length. -/
theorem caption_spans_sound (b : Core.Backends) (req : Core.GenerationRequest)
    (st : Core.PipeState) (h : Core.runPipeline b req = Except.ok st) :
    ∃ a, st.audio = some a ∧
      st.spans.length = st.segments.length ∧
      (0 < st.spans.length → (st.spans.getD 0 ⟨0, 0⟩).start = 0) ∧
      (∀ i, i < st.spans.length →
        (st.spans.getD i ⟨0, 0⟩).start ≤ (st.spans.getD i ⟨0, 0⟩).stop) ∧
      (∀ i, i + 1 < st.spans.length →
        (st.spans.getD i ⟨0, 0⟩).stop = (st.spans.getD (i + 1) ⟨0, 0⟩).start) ∧
      (st.spans.map Core.spanLen).sum = a.durationMs ∧
      (∀ i, i < st.spans.length →
        (st.segments.map Core.segWeight).sum * Core.spanLen (st.spans.getD i ⟨0, 0⟩) <
          a.durationMs * (st.segments.map Core.segWeight).getD i 0 +
            (st.segments.map Core.segWeight).sum ∧
        a.durationMs * (st.segments.map Core.segWeight).getD i 0 <
          (st.segments.map Core.segWeight).sum * Core.spanLen (st.spans.getD i ⟨0, 0⟩) +
            (st.segments.map Core.segWeight).sum) := by
  obtain ⟨segs, a, hseg, hsegs, haud, hdur, hne, hspans⟩ :=
    runPipeline_ok_shape b req st h
  have hwpos : ∀ w ∈ segs.map Core.segWeight, 0 < w := by
    intro w hw
    obtain ⟨seg, hsm, rfl⟩ := List.mem_map.mp hw
    exact segmentText_pos req.text segs hseg seg hsm
  have hmapne : segs.map Core.segWeight ≠ [] := by
    intro hm
    exact hne (List.map_eq_nil_iff.mp hm)
  have hW : 0 < (segs.map Core.segWeight).sum :=
    sum_pos_of_mem _ hmapne hwpos
  have hlen : st.spans.length = (segs.map Core.segWeight).length := by
    rw [hspans, captionSpans_length]
  refine ⟨a, haud, ?_, ?_, ?_, ?_, ?_, ?_⟩
  · rw [hspans, hsegs, captionSpans_length, List.length_map]
  · intro h0
    rw [hlen] at h0
    rw [hspans, captionSpans_getD _ _ 0 h0]
    exact boundary_zero _ _
  · intro i hi
    rw [hlen] at hi
    rw [hspans, captionSpans_getD _ _ i hi]
    exact boundary_mono _ _ i (i + 1) (Nat.le_succ i)
  · intro i hi
    rw [hlen] at hi
    rw [hspans, captionSpans_getD _ _ i (by omega), captionSpans_getD _ _ (i + 1) hi]
  · rw [hspans, captionSpans_sum _ _ hW]
  · intro i hi
    rw [hlen] at hi
    rw [hspans, hsegs]
    exact captionSpans_prop _ _ i hi hW

/-- Witness for C3: the concrete all-success run produces one span of the
full narration duration (1000 ms). -/
theorem caption_spans_sound_witness :
    (((⟨[⟨0, "hi there", "hi there"⟩], some ⟨[1], 1000⟩, [⟨[2], false⟩],
        [⟨0, 1000⟩], [], some [3], []⟩ : Core.PipeState)).spans.map
      Core.spanLen).sum = 1000 := by
  obtain ⟨a, ha, _, _, _, _, hsum, _⟩ :=
    caption_spans_sound Core.sampleBackendsOk Core.sampleRequest
      ⟨[⟨0, "hi there", "hi there"⟩], some ⟨[1], 1000⟩, [⟨[2], false⟩],
        [⟨0, 1000⟩], [], some [3], []⟩ (by rfl)
  have ha2 : a = ⟨[1], 1000⟩ := by
    injection ha with h2
    exact h2.symm
  rw [hsum, ha2]

/-- Claim C6: empty or whitespace-only input is rejected by the page
handlers and by `Submit` (with `InvalidInput`, creating no job), while
segmentation succeeds with at least one segment for every other input. -/
theorem blank_input_rejected (s : String) :
    (isBlank s = true ↔ handleGenerate s = .rejected "Please enter a prompt first.") ∧
    (isBlank s = true ↔
      handleGenerateAudio s = .rejected "Please enter some text to convert to speech.") ∧
    (isBlank s = true →
      ∀ (req : Core.GenerationRequest) (tbl : Core.JobTable) (newId : Nat),
        req.text = s → Core.submit req tbl newId = Except.error "InvalidInput") ∧
    (isBlank s = false →
      ∃ segs, Core.segmentText s = Except.ok segs ∧ segs ≠ []) := by
  have hiff := isBlank_iff_trim_nil s
  refine ⟨?_, ?_, ?_, ?_⟩
  · constructor
    · intro hb
      simp [handleGenerate, hiff.mp hb]
    · intro hr
      by_cases ht : trimList s.data = []
      · exact hiff.mpr ht
      · simp [handleGenerate, ht] at hr
  · constructor
    · intro hb
      simp [handleGenerateAudio, hiff.mp hb]
    · intro hr
      by_cases ht : trimList s.data = []
      · exact hiff.mpr ht
      · simp [handleGenerateAudio, ht] at hr
  · intro hb req tbl newId hreq
    simp [Core.submit, hreq, hiff.mp hb]
  · intro hb
    have ht : trimList s.data ≠ [] := by
      intro hx
      rw [← hiff] at hx
      rw [hx] at hb
      cases hb
    obtain ⟨segs, h1, h2, _⟩ := segmentText_ok s ht
    exact ⟨segs, h1, h2⟩

/-- Witness for C6: a whitespace-only prompt is rejected and `Submit`
refuses it, while `"hello"` segments successfully. -/
theorem blank_input_rejected_witness :
    handleGenerate "  " = .rejected "Please enter a prompt first." ∧
      (∃ segs, Core.segmentText "hello" = Except.ok segs ∧ segs ≠ []) :=
  ⟨(blank_input_rejected "  ").1.mp (by decide),
   (blank_input_rejected "hello").2.2.2 (by decide)⟩

/-- Witness for C10's amended claim: concrete errors hit the 400 branch,
the plain no-response branch and the no-request fallback branch. -/
theorem handleApiError_branches_witness :
    (∃ m, handleApiError ⟨some ⟨400, some "bad field", none⟩, false, none⟩ =
      "Bad request: " ++ m) ∧
      handleApiError ⟨none, true, none⟩ =
        (if includesCORS none then corsMessage
         else "No response from server. Please check your connection.") ∧
      handleApiError ⟨none, false, some "boom"⟩ =
        (if includesCORS (some "boom") then corsMessage
         else jsOrStr (some "boom") "An unexpected error occurred") :=
  ⟨((handleApiError_branches ⟨some ⟨400, some "bad field", none⟩, false, none⟩).1
      ⟨400, some "bad field", none⟩ rfl).1 rfl,
   (handleApiError_branches ⟨none, true, none⟩).2.1 rfl rfl,
   (handleApiError_branches ⟨none, false, some "boom"⟩).2.2 rfl rfl⟩

end KalaaSetu
